import Mathlib

/-!
Shallow embedding of the core of the ollama-llm-benchmarks repository:
llm_client.py, resource_monitor.py, report_generator.py and
report_analyzer.py.  Real-valued quantities are modelled as rationals,
Python round (banker rounding at a decimal precision) is modelled
explicitly, fallible code returns Except, and dictionary fields that may
be missing are modelled as Option.
-/

/-!
## llm_client.py: OllamaClient.generate_response

The streaming request is modelled as the list of received chunks paired
with the perf_counter timestamp at which each chunk arrived, together
with the start timestamp (taken just before the request) and the end
timestamp (taken just after the loop).
-/

/-!
## resource_monitor.py: ResourceMonitor

The sensors subprocess outcome is modelled as an inductive environment
value; the text parsing works on the character list of the captured
stdout, exactly mirroring the line loop of _get_system_temperature.
-/

/-!
## report_generator.py: ReportGenerator._calculate_averages
-/

/-!
## report_analyzer.py: analyze_resource_usage
-/

/-- Python exceptions that the embedded code can raise. -/
inductive PyExc where
  | typeError
  | timeoutExpired
deriving DecidableEq

/-- Round half to even: the integer Python round(x) produces. -/
def roundHalfEven (q : ℚ) : ℤ :=
  if q - ⌊q⌋ < 1 / 2 then ⌊q⌋
  else if 1 / 2 < q - ⌊q⌋ then ⌊q⌋ + 1
  else if ⌊q⌋ % 2 = 0 then ⌊q⌋ else ⌊q⌋ + 1

/-- Python round(x, n) for a nonnegative number n of decimal places. -/
def pyRound (n : ℕ) (q : ℚ) : ℚ :=
  (roundHalfEven (q * 10 ^ n) : ℚ) / 10 ^ n

/-- One chunk of the Ollama streaming response.  chunk.get with a default
is modelled with Option / getD. -/
structure Chunk where
  response : Option String
  done : Bool
  eval_count : Option ℕ
deriving DecidableEq

/-- Python truthiness of the first_token_time variable: None and 0.0 are
falsy, so `if not first_token_time` fires on both. -/
def pyFalsyTime : Option ℚ → Bool
  | none => true
  | some t => decide (t = 0)

/-- The streaming for-loop of generate_response: accumulates
(first_token_time, full_response, final_chunk) and breaks when a chunk
has a truthy done flag. -/
def streamLoop : List (Chunk × ℚ) → Option ℚ → String → Option Chunk →
    Option ℚ × String × Option Chunk
  | [], ft, acc, fc => (ft, acc, fc)
  | (c, t) :: rest, ft, acc, fc =>
    let ft2 := if pyFalsyTime ft then some t else ft
    let acc2 := acc ++ c.response.getD ""
    let fc2 := some c
    if c.done then (ft2, acc2, fc2) else streamLoop rest ft2 acc2 fc2

/-- final_chunk.get with default 0: the empty initial dict yields 0. -/
def finalEvalCount : Option Chunk → ℕ
  | none => 0
  | some c => c.eval_count.getD 0

/-- The result dictionary of generate_response. -/
structure GenResult where
  prompt : String
  response_text : String
  time_to_first_token_s : ℚ
  total_latency_s : ℚ
  tokens_generated : ℕ
  tokens_per_second : ℚ
  ollama_metadata : Option Chunk
deriving DecidableEq

/-- The code after the streaming loop.  time_to_first_token is None when
first_token_time is falsy, and round(None, 4) then raises TypeError. -/
def mkResult (prompt : String) (start_time end_time : ℚ)
    (st : Option ℚ × String × Option Chunk) : Except PyExc GenResult :=
  let total_latency := end_time - start_time
  let tokens_generated := finalEvalCount st.2.2
  let tokens_per_second : ℚ :=
    if tokens_generated ≠ 0 ∧ 0 < total_latency
    then (tokens_generated : ℚ) / total_latency else 0
  match st.1 with
  | none => Except.error PyExc.typeError
  | some t =>
    if t = 0 then Except.error PyExc.typeError
    else Except.ok {
      prompt := prompt
      response_text := st.2.1
      time_to_first_token_s := pyRound 4 (t - start_time)
      total_latency_s := pyRound 4 total_latency
      tokens_generated := tokens_generated
      tokens_per_second := pyRound 2 tokens_per_second
      ollama_metadata := st.2.2 }

/-- OllamaClient.generate_response over the modelled stream. -/
def generate_response (model prompt : String) (start_time : ℚ)
    (stream : List (Chunk × ℚ)) (end_time : ℚ) : Except PyExc GenResult :=
  mkResult prompt start_time end_time (streamLoop stream none "" none)

/-- Outcome of running the sensors subprocess: the tool can be
missing (FileNotFoundError), exit nonzero (CalledProcessError because of
check=True), exceed the 5 second timeout (TimeoutExpired), or complete
with captured stdout. -/
inductive SensorsRun where
  | toolMissing
  | nonzeroExit
  | timedOut
  | completed (stdout : String)

/-- The keyword list prioritized by _get_system_temperature. -/
def keywords : List String := ["Package id 0", "Core 0", "cpu_thermal", "temp1"]

/-- Numeric value of a digit run. -/
def digitsToNat (ds : List Char) : ℕ :=
  ds.foldl (fun n c => 10 * n + (c.toNat - 48)) 0

/-- The rational value of the captured group digits, as float() of
"<int>.<frac>" would produce: integer part plus fraction digits over a
power of ten. -/
def ratOfParsed (t : ℕ × ℕ × ℕ) : ℚ :=
  (t.1 : ℚ) + (t.2.1 : ℚ) / 10 ^ t.2.2

/-- Try to match the regex \+(\d+\.\d+)°C at the head of the character
list; on success return (integer digits, fraction digits, fraction
length). -/
def matchTempAt (l : List Char) : Option (ℕ × ℕ × ℕ) :=
  match l with
  | '+' :: rest =>
    let intPart := rest.takeWhile Char.isDigit
    let rest1 := rest.dropWhile Char.isDigit
    if intPart.isEmpty then none
    else
      match rest1 with
      | '.' :: rest2 =>
        let fracPart := rest2.takeWhile Char.isDigit
        let rest3 := rest2.dropWhile Char.isDigit
        if fracPart.isEmpty then none
        else
          match rest3 with
          | '°' :: 'C' :: _ => some (digitsToNat intPart, digitsToNat fracPart, fracPart.length)
          | _ => none
      | _ => none
  | _ => none

/-- re.search over the line: the leftmost match of the pattern, as the
numeric triple. -/
def searchTempN : List Char → Option (ℕ × ℕ × ℕ)
  | [] => none
  | c :: rest =>
    match matchTempAt (c :: rest) with
    | some v => some v
    | none => searchTempN rest

/-- temp_pattern.search(line) followed by float(match.group(1)). -/
def searchTemp (line : List Char) : Option ℚ :=
  (searchTempN line).map ratOfParsed

/-- str.split of the output on newline characters. -/
def splitOnNl : List Char → List (List Char)
  | [] => [[]]
  | c :: rest =>
    let r := splitOnNl rest
    if c = '\n' then [] :: r
    else
      match r with
      | h :: t2 => (c :: h) :: t2
      | [] => [[c]]

/-- str.strip: drop leading and trailing whitespace. -/
def stripChars (l : List Char) : List Char :=
  ((l.dropWhile Char.isWhitespace).reverse.dropWhile Char.isWhitespace).reverse

/-- str.lower, character by character. -/
def lowerChars (l : List Char) : List Char := l.map Char.toLower

/-- Python substring containment (needle in hay). -/
def listContains (hay needle : List Char) : Bool :=
  match hay with
  | [] => needle.isEmpty
  | _ :: t2 => needle.isPrefixOf hay || listContains t2 needle

/-- any(k.lower() in line.strip().lower() for k in keywords). -/
def lineHasKeyword (line : List Char) : Bool :=
  keywords.any (fun k => listContains (lowerChars (stripChars line)) (lowerChars k.data))

/-- The first loop of _get_system_temperature: return the first pattern
value found on a keyword line; keyword lines without a pattern match are
skipped. -/
def scanKeywordLines : List (List Char) → Option ℚ
  | [] => none
  | line :: rest =>
    if lineHasKeyword line then
      match searchTemp line with
      | some v => some v
      | none => scanKeywordLines rest
    else scanKeywordLines rest

/-- The fallback loop: running maximum of the per-line first matches. -/
def highestTempFold : List (List Char) → Option ℚ → Option ℚ
  | [], acc => acc
  | line :: rest, acc =>
    match searchTemp line with
    | none => highestTempFold rest acc
    | some t =>
      match acc with
      | none => highestTempFold rest (some t)
      | some h => highestTempFold rest (if h < t then some t else some h)

/-- The parsing part of _get_system_temperature on the captured stdout. -/
def parseSensorsOutput (output : String) : Option ℚ :=
  let lines := splitOnNl output.data
  match scanKeywordLines lines with
  | some v => some v
  | none => highestTempFold lines none

/-- ResourceMonitor._get_system_temperature as a function of the sensors
subprocess outcome.  The except clause catches FileNotFoundError,
CalledProcessError, IndexError and ValueError, but not TimeoutExpired,
which therefore propagates. -/
def get_system_temperature : SensorsRun → Except PyExc (Option ℚ)
  | SensorsRun.toolMissing => Except.ok none
  | SensorsRun.nonzeroExit => Except.ok none
  | SensorsRun.timedOut => Except.error PyExc.timeoutExpired
  | SensorsRun.completed out => Except.ok (parseSensorsOutput out)

/-- The system_ram_used_gb field of ResourceMonitor.get_resource_snapshot:
round(system_memory.used / (1024*2), 2). -/
def snapshot_system_ram_used_gb (used : ℕ) : ℚ :=
  pyRound 2 ((used : ℚ) / (1024 * 2))

/-- The ollama_process_ram_rss_gb field of the same snapshot:
round(process_memory.rss / (1024**3), 2). -/
def snapshot_ollama_ram_rss_gb (rss : ℕ) : ℚ :=
  pyRound 2 ((rss : ℚ) / 1024 ^ 3)

/-- A concrete sensors stdout containing the prioritized package line. -/
def sampleSensors : String :=
  "cpu_fan: 1200 RPM\nPackage id 0: +45.0°C  (high = +80.0°C, crit = +100.0°C)\nCore 0: +42.0°C  (high = +80.0°C)"

/-- The llm_metrics part of one recorded run. -/
structure LlmMetrics where
  total_latency_s : ℚ
  time_to_first_token_s : ℚ
  tokens_per_second : ℚ
deriving DecidableEq

/-- The per-model summary dictionary built by _calculate_averages. -/
structure ModelSummary where
  total_latency_s : ℚ
  time_to_first_token_s : ℚ
  tokens_per_second : ℚ
  total_runs : ℕ
deriving DecidableEq

/-- ReportGenerator._calculate_averages over the runs recorded for one
model; the empty dict returned for zero runs is modelled as none. -/
def calculate_averages (runs : List LlmMetrics) : Option ModelSummary :=
  if runs = [] then none
  else
    some {
      total_latency_s :=
        pyRound 4 ((runs.foldl (fun a r => a + r.total_latency_s) 0) / runs.length)
      time_to_first_token_s :=
        pyRound 4 ((runs.foldl (fun a r => a + r.time_to_first_token_s) 0) / runs.length)
      tokens_per_second :=
        pyRound 4 ((runs.foldl (fun a r => a + r.tokens_per_second) 0) / runs.length)
      total_runs := runs.length }

/-- One persisted resource snapshot as the analyzer reads it: every
field may be missing, snapshot.get supplies the 0.0 default. -/
structure Snapshot where
  system_cpu_percent : Option ℚ
  ollama_process_cpu_percent : Option ℚ
  ollama_process_ram_rss_gb : Option ℚ
deriving DecidableEq

/-- One run entry of raw_results; run.get("resource_snapshots", []) is
modelled with Option and getD. -/
structure Run where
  resource_snapshots : Option (List Snapshot)
deriving DecidableEq

/-- The per-model maxima record of analyze_resource_usage. -/
structure MaxResources where
  max_system_cpu : ℚ
  max_ollama_cpu : ℚ
  max_ollama_ram_gb : ℚ
deriving DecidableEq

/-- The three max updates performed for one snapshot. -/
def updateMax (acc : MaxResources) (s : Snapshot) : MaxResources :=
  { max_system_cpu := max acc.max_system_cpu (s.system_cpu_percent.getD 0)
    max_ollama_cpu := max acc.max_ollama_cpu (s.ollama_process_cpu_percent.getD 0)
    max_ollama_ram_gb := max acc.max_ollama_ram_gb (s.ollama_process_ram_rss_gb.getD 0) }

/-- All snapshots of all runs of one model, in iteration order. -/
def modelSnapshots (runs : List Run) : List Snapshot :=
  (runs.map (fun r => r.resource_snapshots.getD [])).flatten

/-- analyze_resource_usage: the defaultdict entry for a model is created
on first access, i.e. exactly when the model has at least one snapshot;
a model with no snapshots never appears in the returned dict. -/
def analyze_resource_usage (raw : List (String × List Run)) :
    List (String × MaxResources) :=
  raw.filterMap (fun p =>
    let snaps := modelSnapshots p.2
    if snaps = [] then none
    else some (p.1, snaps.foldl updateMax ⟨0, 0, 0⟩))

/-- A single done-chunk carrying one generated token. -/
def oneTokenChunk : Chunk := ⟨some "x", true, some 1⟩

/-- A single done-chunk carrying two generated tokens. -/
def twoTokenChunk : Chunk := ⟨some "x", true, some 2⟩

/-- The result generate_response produces for the two-token stream below. -/
def twoTokenRes : GenResult := ⟨"p", "x", 1, 2, 2, 1, some twoTokenChunk⟩

/-- First chunk of the never-done stream. -/
def chunkA : Chunk := ⟨some "a", false, some 5⟩

/-- Last chunk of the never-done stream. -/
def chunkB : Chunk := ⟨some "b", false, some 7⟩

/-- A two-chunk stream in which no chunk ever signals done. -/
def noDoneStream : List (Chunk × ℚ) := [(chunkA, 2), (chunkB, 3)]

/-- The result generate_response produces for noDoneStream. -/
def noDoneRes : GenResult := ⟨"p", "ab", 1, 3, 7, 233 / 100, some chunkB⟩

/-- The host-only model of the C8 scenario: two snapshots with system
CPU 10 and 85 and no process fields. -/
def hostRunsA : List Run := [⟨some [⟨some 10, none, none⟩, ⟨some 85, none, none⟩]⟩]

/-- The process-tracking model of the C8 scenario: one snapshot with all
three fields present. -/
def procRunsB : List Run := [⟨some [⟨some 20, some 50, some 2⟩]⟩]

/-- The raw_results mapping of the C8 scenario. -/
def rawAB : List (String × List Run) := [("modelA", hostRunsA), ("modelB", procRunsB)]

lemma roundHalfEven_bounds (q : ℚ) :
    ⌊q⌋ ≤ roundHalfEven q ∧ roundHalfEven q ≤ ⌊q⌋ + 1 := by
  unfold roundHalfEven
  split_ifs <;> omega

lemma roundHalfEven_mono {a b : ℚ} (h : a ≤ b) :
    roundHalfEven a ≤ roundHalfEven b := by
  have hfl : ⌊a⌋ ≤ ⌊b⌋ := Int.floor_le_floor h
  rcases lt_or_eq_of_le hfl with hlt | heq
  · have h1 := (roundHalfEven_bounds a).2
    have h2 := (roundHalfEven_bounds b).1
    omega
  · have hfr : a - (⌊a⌋ : ℚ) ≤ b - (⌊b⌋ : ℚ) := by
      rw [heq]
      linarith
    unfold roundHalfEven
    rw [← heq] at hfr ⊢
    split_ifs <;> first | omega | linarith

lemma roundHalfEven_nonneg {q : ℚ} (h : 0 ≤ q) : 0 ≤ roundHalfEven q := by
  have h0 : (0 : ℤ) ≤ ⌊q⌋ := Int.floor_nonneg.mpr h
  have h1 := (roundHalfEven_bounds q).1
  omega

lemma roundHalfEven_zero : roundHalfEven 0 = 0 := by
  unfold roundHalfEven
  norm_num

lemma pyRound_mono (n : ℕ) {a b : ℚ} (h : a ≤ b) : pyRound n a ≤ pyRound n b := by
  have hp : (0 : ℚ) < 10 ^ n := by positivity
  have h1 : a * 10 ^ n ≤ b * 10 ^ n := mul_le_mul_of_nonneg_right h (le_of_lt hp)
  have h2 : ((roundHalfEven (a * 10 ^ n) : ℤ) : ℚ) ≤ ((roundHalfEven (b * 10 ^ n) : ℤ) : ℚ) :=
    Int.cast_le.mpr (roundHalfEven_mono h1)
  unfold pyRound
  exact div_le_div_of_nonneg_right h2 (le_of_lt hp)

lemma pyRound_nonneg (n : ℕ) {q : ℚ} (h : 0 ≤ q) : 0 ≤ pyRound n q := by
  have hq : (0 : ℚ) ≤ q * 10 ^ n := mul_nonneg h (by positivity)
  have h1 : (0 : ℚ) ≤ ((roundHalfEven (q * 10 ^ n) : ℤ) : ℚ) := by
    exact_mod_cast roundHalfEven_nonneg hq
  unfold pyRound
  exact div_nonneg h1 (by positivity)

lemma pyRound_zero (n : ℕ) : pyRound n 0 = 0 := by
  unfold pyRound
  rw [zero_mul, roundHalfEven_zero]
  simp

lemma roundHalfEven_intCast (z : ℤ) : roundHalfEven (z : ℚ) = z := by
  unfold roundHalfEven
  rw [Int.floor_intCast, sub_self]
  norm_num

lemma pyRound_intCast (n : ℕ) (z : ℤ) : pyRound n (z : ℚ) = z := by
  unfold pyRound
  have h1 : (z : ℚ) * 10 ^ n = ((z * 10 ^ n : ℤ) : ℚ) := by push_cast; ring
  rw [h1, roundHalfEven_intCast, Int.cast_mul, Int.cast_pow]
  rw [mul_div_assoc]
  norm_num

lemma roundHalfEven_eq_of_floor (z : ℤ) {q : ℚ} (hz : ⌊q⌋ = z) (h : q - z < 1 / 2) :
    roundHalfEven q = z := by
  unfold roundHalfEven
  rw [hz, if_pos h]

lemma streamLoop_ft_mem :
    ∀ (stream : List (Chunk × ℚ)) (ft : Option ℚ) (acc : String) (fc : Option Chunk),
      (streamLoop stream ft acc fc).1 = ft ∨
        ∃ p ∈ stream, (streamLoop stream ft acc fc).1 = some p.2 := by
  intro stream
  induction stream with
  | nil => intro ft acc fc; exact Or.inl rfl
  | cons hd tl ih =>
    intro ft acc fc
    rcases hd with ⟨c, t⟩
    simp only [streamLoop]
    by_cases hdone : c.done
    · rw [if_pos hdone]
      by_cases hf : pyFalsyTime ft
      · rw [if_pos hf]
        exact Or.inr ⟨(c, t), List.mem_cons_self _ _, rfl⟩
      · rw [if_neg hf]
        exact Or.inl rfl
    · rw [if_neg hdone]
      by_cases hf : pyFalsyTime ft
      · rw [if_pos hf]
        rcases ih (some t) (acc ++ c.response.getD "") (some c) with h | ⟨p, hp, he⟩
        · exact Or.inr ⟨(c, t), List.mem_cons_self _ _, h⟩
        · exact Or.inr ⟨p, List.mem_cons_of_mem _ hp, he⟩
      · rw [if_neg hf]
        rcases ih ft (acc ++ c.response.getD "") (some c) with h | ⟨p, hp, he⟩
        · exact Or.inl h
        · exact Or.inr ⟨p, List.mem_cons_of_mem _ hp, he⟩

/-- C1: with an empty stream (zero chunks) generate_response does not
return normally: first_token_time stays None and round(None, 4) raises
TypeError, although the spec demands that this case must not raise. -/
theorem c1_zero_chunks_raises :
    generate_response "llama3" "hello" 1 [] 2 = Except.error PyExc.typeError := rfl

/-- C5 (amended): the returned tokens_per_second is the quotient of the
token count by the raw total latency rounded to 2 decimal places when
both are positive, and 0 otherwise; it is always nonnegative. -/
theorem c5_tokens_per_second (model prompt : String) (start_time end_time : ℚ)
    (stream : List (Chunk × ℚ)) (r : GenResult)
    (h : generate_response model prompt start_time stream end_time = Except.ok r) :
    (r.tokens_per_second =
      if r.tokens_generated ≠ 0 ∧ 0 < end_time - start_time
      then pyRound 2 ((r.tokens_generated : ℚ) / (end_time - start_time))
      else 0) ∧ 0 ≤ r.tokens_per_second := by
  rcases hS : streamLoop stream none "" none with ⟨ft, fr, fc⟩
  unfold generate_response at h
  rw [hS] at h
  cases ft with
  | none => simp [mkResult] at h
  | some t =>
    by_cases ht : t = 0
    · simp [mkResult, ht] at h
    · simp only [mkResult] at h
      rw [if_neg ht] at h
      injection h with h
      have htps : r.tokens_per_second =
          pyRound 2 (if finalEvalCount fc ≠ 0 ∧ 0 < end_time - start_time
            then ((finalEvalCount fc : ℚ) / (end_time - start_time)) else 0) := by
        rw [← h]
      have htok : r.tokens_generated = finalEvalCount fc := by
        rw [← h]
      rw [htps, htok]
      constructor
      · by_cases hc : finalEvalCount fc ≠ 0 ∧ 0 < end_time - start_time
        · rw [if_pos hc, if_pos hc]
        · rw [if_neg hc, if_neg hc, pyRound_zero]
      · apply pyRound_nonneg
        by_cases hc : finalEvalCount fc ≠ 0 ∧ 0 < end_time - start_time
        · rw [if_pos hc]
          exact div_nonneg (by positivity) (le_of_lt hc.2)
        · rw [if_neg hc]

/-- C6: whenever the stream produced a first token (the call returns
normally, so TTFT is present) and every chunk timestamp lies between the
start and the end timestamp, the rounded TTFT is at most the rounded
total latency. -/
theorem c6_ttft_le_latency (model prompt : String) (start_time end_time : ℚ)
    (stream : List (Chunk × ℚ))
    (hb : ∀ p ∈ stream, start_time ≤ p.2 ∧ p.2 ≤ end_time) (r : GenResult)
    (h : generate_response model prompt start_time stream end_time = Except.ok r) :
    r.time_to_first_token_s ≤ r.total_latency_s := by
  rcases hS : streamLoop stream none "" none with ⟨ft, fr, fc⟩
  have hmem := streamLoop_ft_mem stream none "" none
  rw [hS] at hmem
  unfold generate_response at h
  rw [hS] at h
  cases ft with
  | none => simp [mkResult] at h
  | some t =>
    by_cases ht : t = 0
    · simp [mkResult, ht] at h
    · simp only [mkResult] at h
      rw [if_neg ht] at h
      injection h with h
      have httft : r.time_to_first_token_s = pyRound 4 (t - start_time) := by
        rw [← h]
      have hlat : r.total_latency_s = pyRound 4 (end_time - start_time) := by
        rw [← h]
      rw [httft, hlat]
      simp only [Option.some.injEq] at hmem
      rcases hmem with hmem | ⟨p, hp, he⟩
      · exact absurd hmem (by simp)
      · obtain ⟨h1, h2⟩ := hb p hp
        apply pyRound_mono
        rw [he]
        linarith

lemma streamLoop_no_done :
    ∀ (l : List (Chunk × ℚ)), (∀ p ∈ l, p.1.done = false) →
      ∀ (ft : Option ℚ) (acc : String) (fc : Option Chunk),
        streamLoop l ft acc fc =
          (l.foldl (fun f p => if pyFalsyTime f then some p.2 else f) ft,
           l.foldl (fun a p => a ++ p.1.response.getD "") acc,
           l.foldl (fun _ p => some p.1) fc) := by
  intro l
  induction l with
  | nil => intro _ ft acc fc; rfl
  | cons hd tl ih =>
    intro hnd ft acc fc
    rcases hd with ⟨c, t⟩
    have hc : c.done = false := hnd (c, t) (List.mem_cons_self _ _)
    simp only [streamLoop, hc, Bool.false_eq_true, if_false, List.foldl_cons]
    exact ih (fun p hp => hnd p (List.mem_cons_of_mem _ hp)) _ _ _

lemma ftFold_stays (l : List (Chunk × ℚ)) {v : ℚ} (hv : v ≠ 0) :
    l.foldl (fun f p => if pyFalsyTime f then some p.2 else f) (some v) = some v := by
  induction l with
  | nil => rfl
  | cons hd tl ih =>
    rw [List.foldl_cons]
    have hfal : pyFalsyTime (some v) = false := by
      simp [pyFalsyTime, hv]
    rw [hfal]
    simpa using ih

lemma getLastQ_cons_isSome :
    ∀ (a : Chunk × ℚ) (l : List (Chunk × ℚ)), ((a :: l).getLast?).isSome = true := by
  intro a l
  induction l generalizing a with
  | nil => rfl
  | cons b m ih =>
    rw [List.getLast?_cons_cons]
    exact ih b

lemma lastFold :
    ∀ (l : List (Chunk × ℚ)) (fc : Option Chunk),
      l.foldl (fun _ p => some p.1) fc =
        (match l.getLast? with
         | some p => some p.1
         | none => fc) := by
  intro l
  induction l with
  | nil => intro fc; rfl
  | cons hd tl ih =>
    intro fc
    rw [List.foldl_cons, ih (some hd.1)]
    cases tl with
    | nil => rfl
    | cons hd2 tl2 =>
      rw [List.getLast?_cons_cons]
      cases hq : (hd2 :: tl2).getLast? with
      | some p => rfl
      | none =>
        have hs := getLastQ_cons_isSome hd2 tl2
        rw [hq] at hs
        exact absurd hs (by simp)

/-- C10: a nonempty stream that never signals done still returns
normally (the physical clock makes every chunk timestamp positive);
response_text is the concatenation of all chunk fragments in order and
the metadata and token count come from the last chunk received. -/
theorem c10_no_done_returns (model prompt : String) (start_time end_time : ℚ)
    (stream : List (Chunk × ℚ)) (hne : stream ≠ [])
    (hstart : 0 < start_time) (hts : ∀ p ∈ stream, start_time ≤ p.2)
    (hnd : ∀ p ∈ stream, p.1.done = false) :
    ∃ r, generate_response model prompt start_time stream end_time = Except.ok r ∧
      r.response_text = stream.foldl (fun a p => a ++ p.1.response.getD "") "" ∧
      r.ollama_metadata = (stream.getLast?).map Prod.fst ∧
      r.tokens_generated = ((stream.getLast?).map (fun p => p.1.eval_count.getD 0)).getD 0 := by
  rcases stream with _ | ⟨p0, rest⟩
  · exact absurd rfl hne
  rcases p0 with ⟨c, t⟩
  have hts0 : start_time ≤ t := hts (c, t) (List.mem_cons_self _ _)
  have ht0 : t ≠ 0 := by
    intro h
    rw [h] at hts0
    linarith
  have hsl := streamLoop_no_done ((c, t) :: rest) hnd none "" none
  have hft : (((c, t) :: rest).foldl
      (fun f p => if pyFalsyTime f then some p.2 else f) none) = some t := by
    simp only [List.foldl_cons, pyFalsyTime, if_true]
    exact ftFold_stays rest ht0
  unfold generate_response
  rw [hsl, hft]
  simp only [mkResult]
  rw [if_neg ht0]
  refine ⟨_, rfl, rfl, ?_, ?_⟩
  · show (((c, t) :: rest).foldl (fun _ p => some p.1) none) = _
    rw [lastFold]
    cases hq : ((c, t) :: rest).getLast? with
    | some p => rfl
    | none => rfl
  · show finalEvalCount (((c, t) :: rest).foldl (fun _ p => some p.1) none) = _
    rw [lastFold]
    cases hq : ((c, t) :: rest).getLast? with
    | some p => rfl
    | none => rfl

/-- C2: the reader returns absent when the sensors tool is missing or
exits nonzero, but the 5 second timeout raises TimeoutExpired because the
except clause does not list it, although the spec says read never raises. -/
theorem c2_timeout_uncaught :
    get_system_temperature SensorsRun.timedOut = Except.error PyExc.timeoutExpired ∧
    get_system_temperature SensorsRun.toolMissing = Except.ok none ∧
    get_system_temperature SensorsRun.nonzeroExit = Except.ok none :=
  ⟨rfl, rfl, rfl⟩

/-- C3: on a host with 2^30 used bytes (exactly one GiB) the snapshot
reports 524288.0 because the code divides by 1024*2 = 2048, not by the
1024^3 the GB field requires (the sibling process-RSS field does divide
by 1024^3). -/
theorem c3_ram_conversion_bug :
    snapshot_system_ram_used_gb (2 ^ 30) = 524288 ∧
    pyRound 2 (((2 ^ 30 : ℕ) : ℚ) / 1024 ^ 3) = 1 ∧
    snapshot_system_ram_used_gb (2 ^ 30) ≠ pyRound 2 (((2 ^ 30 : ℕ) : ℚ) / 1024 ^ 3) := by
  have h1 : snapshot_system_ram_used_gb (2 ^ 30) = 524288 := by
    unfold snapshot_system_ram_used_gb
    have e : ((2 ^ 30 : ℕ) : ℚ) / (1024 * 2) = ((524288 : ℤ) : ℚ) := by norm_num
    rw [e, pyRound_intCast]
    norm_num
  have h2 : pyRound 2 (((2 ^ 30 : ℕ) : ℚ) / 1024 ^ 3) = 1 := by
    have e : ((2 ^ 30 : ℕ) : ℚ) / 1024 ^ 3 = ((1 : ℤ) : ℚ) := by norm_num
    rw [e, pyRound_intCast]
    norm_num
  refine ⟨h1, h2, ?_⟩
  rw [h1, h2]
  norm_num

lemma scanKeywordLines_eq_findSome? (lines : List (List Char)) :
    scanKeywordLines lines =
      lines.findSome? (fun line => if lineHasKeyword line then searchTemp line else none) := by
  induction lines with
  | nil => rfl
  | cons line rest ih =>
    rw [List.findSome?_cons]
    by_cases hk : lineHasKeyword line
    · cases hs : searchTemp line with
      | some v => simp [scanKeywordLines, hk, hs]
      | none => simp [scanKeywordLines, hk, hs, ih]
    · simp [scanKeywordLines, hk, ih]

lemma highestTempFold_spec (lines : List (List Char)) :
    (∀ h : ℚ, highestTempFold lines (some h) =
        some ((lines.filterMap searchTemp).foldl max h)) ∧
      highestTempFold lines none = (lines.filterMap searchTemp).max? := by
  induction lines with
  | nil => exact ⟨fun h => rfl, rfl⟩
  | cons line rest ih =>
    have hstep : ∀ h t : ℚ, (if h < t then some t else some h) = some (max h t) := by
      intro h t
      by_cases hlt : h < t
      · rw [if_pos hlt, max_eq_right (le_of_lt hlt)]
      · rw [if_neg hlt, max_eq_left (le_of_not_lt hlt)]
    constructor
    · intro h
      cases hs : searchTemp line with
      | none => simp [highestTempFold, hs, List.filterMap_cons, ih.1 h]
      | some t =>
        simp only [highestTempFold, hs, hstep, List.filterMap_cons]
        rw [ih.1 (max h t), List.foldl_cons]
    · cases hs : searchTemp line with
      | none => simp [highestTempFold, hs, List.filterMap_cons, ih.2]
      | some t =>
        simp only [highestTempFold, hs, List.filterMap_cons]
        rw [ih.1 t]
        rfl

/-- C9: the parser first returns the first pattern value found on a
prioritized keyword line, and only when no keyword line yields a value
does it fall back to the highest per-line first match over all lines; on
the sample output containing the package line it reads 45.0. -/
theorem c9_priority_then_highest :
    (∀ output : String,
      parseSensorsOutput output =
        match (splitOnNl output.data).findSome?
            (fun line => if lineHasKeyword line then searchTemp line else none) with
        | some v => some v
        | none => ((splitOnNl output.data).filterMap searchTemp).max?) ∧
    get_system_temperature (SensorsRun.completed sampleSensors) = Except.ok (some 45) := by
  constructor
  · intro output
    simp only [parseSensorsOutput]
    rw [scanKeywordLines_eq_findSome?]
    cases hf : (splitOnNl output.data).findSome?
        (fun line => if lineHasKeyword line then searchTemp line else none) with
    | some v => rfl
    | none => exact (highestTempFold_spec _).2
  · show Except.ok (parseSensorsOutput sampleSensors) = Except.ok (some 45)
    have h1 : scanKeywordLines (splitOnNl sampleSensors.data) =
        some (ratOfParsed (45, 0, 1)) := rfl
    have h2 : ratOfParsed (45, 0, 1) = 45 := by norm_num [ratOfParsed]
    simp only [parseSensorsOutput]
    rw [h1, h2]

/-- C4 counterexample: with zero recorded runs the returned summary is
the empty dict, so no summary carrying a total_runs field is produced at
all. -/
theorem c4_zero_runs_counterexample :
    (calculate_averages []).isSome = false := rfl

/-- C4 (amended): zero recorded runs yield the empty summary: the call
returns none, performing no division, rather than a summary whose
total_runs is 0. -/
theorem c4_zero_runs_empty : calculate_averages [] = none := rfl

lemma foldl_add_eq (f : LlmMetrics → ℚ) (runs : List LlmMetrics) :
    ∀ a : ℚ, runs.foldl (fun x r => x + f r) a = a + (runs.map f).sum := by
  induction runs with
  | nil => intro a; simp
  | cons hd tl ih =>
    intro a
    rw [List.foldl_cons, List.map_cons, List.sum_cons, ih (a + f hd)]
    ring

lemma pyRound_natCast (n m : ℕ) : pyRound n (m : ℚ) = m := by
  have h := pyRound_intCast n (m : ℤ)
  push_cast at h
  exact h

/-- C7: for a model with at least one recorded run the summary carries
the record count and the arithmetic mean of each of the three metrics,
each mean rounded to 4 decimal places. -/
theorem c7_summary_means (runs : List LlmMetrics) (h : runs ≠ []) :
    calculate_averages runs = some {
      total_latency_s :=
        pyRound 4 ((runs.map (fun r => r.total_latency_s)).sum / runs.length)
      time_to_first_token_s :=
        pyRound 4 ((runs.map (fun r => r.time_to_first_token_s)).sum / runs.length)
      tokens_per_second :=
        pyRound 4 ((runs.map (fun r => r.tokens_per_second)).sum / runs.length)
      total_runs := runs.length } := by
  unfold calculate_averages
  rw [if_neg h]
  have e1 : runs.foldl (fun a r => a + r.total_latency_s) 0 =
      (runs.map (fun r => r.total_latency_s)).sum := by
    simpa using foldl_add_eq (fun r => r.total_latency_s) runs 0
  have e2 : runs.foldl (fun a r => a + r.time_to_first_token_s) 0 =
      (runs.map (fun r => r.time_to_first_token_s)).sum := by
    simpa using foldl_add_eq (fun r => r.time_to_first_token_s) runs 0
  have e3 : runs.foldl (fun a r => a + r.tokens_per_second) 0 =
      (runs.map (fun r => r.tokens_per_second)).sum := by
    simpa using foldl_add_eq (fun r => r.tokens_per_second) runs 0
  rw [e1, e2, e3]

/-- C7 witness: three runs with latencies 2, 3, 4 average to exactly 3
with total_runs 3. -/
theorem c7_witness :
    calculate_averages [⟨2, 1, 1⟩, ⟨3, 1, 1⟩, ⟨4, 1, 1⟩] = some ⟨3, 1, 1, 3⟩ := by
  rw [c7_summary_means [⟨2, 1, 1⟩, ⟨3, 1, 1⟩, ⟨4, 1, 1⟩] (List.cons_ne_nil _ _)]
  have e1 : (([⟨2, 1, 1⟩, ⟨3, 1, 1⟩, ⟨4, 1, 1⟩] : List LlmMetrics).map
      (fun r => r.total_latency_s)).sum
        / (([⟨2, 1, 1⟩, ⟨3, 1, 1⟩, ⟨4, 1, 1⟩] : List LlmMetrics).length : ℚ) = ((3 : ℤ) : ℚ) := by
    norm_num
  have e2 : (([⟨2, 1, 1⟩, ⟨3, 1, 1⟩, ⟨4, 1, 1⟩] : List LlmMetrics).map
      (fun r => r.time_to_first_token_s)).sum
        / (([⟨2, 1, 1⟩, ⟨3, 1, 1⟩, ⟨4, 1, 1⟩] : List LlmMetrics).length : ℚ) = ((1 : ℤ) : ℚ) := by
    norm_num
  have e3 : (([⟨2, 1, 1⟩, ⟨3, 1, 1⟩, ⟨4, 1, 1⟩] : List LlmMetrics).map
      (fun r => r.tokens_per_second)).sum
        / (([⟨2, 1, 1⟩, ⟨3, 1, 1⟩, ⟨4, 1, 1⟩] : List LlmMetrics).length : ℚ) = ((1 : ℤ) : ℚ) := by
    norm_num
  rw [e1, e2, e3, pyRound_intCast, pyRound_intCast]
  norm_num [ModelSummary.mk.injEq]

/-- C8 counterexample: a model present in raw_results with no snapshots
is skipped: the analyzer output for it is absent entirely. -/
theorem c8_counterexample :
    analyze_resource_usage [("A", [])] = [] ∧
    (analyze_resource_usage [("A", [])]).lookup "A" = none :=
  ⟨rfl, rfl⟩

/-- C8 (amended): every model with at least one snapshot in some run is
reported with, independently for each of the three metrics, the running
maximum over all its snapshots of the field value, a missing field
counting as 0.0; a model with no process-level data therefore reports 0
rather than being absent, but a model with no snapshots at all is
omitted from the result. -/
theorem c8_running_maxima (raw : List (String × List Run)) (m : String) (runs : List Run)
    (hmem : (m, runs) ∈ raw) (hne : modelSnapshots runs ≠ []) :
    (m, ({ max_system_cpu :=
            ((modelSnapshots runs).map (fun s => s.system_cpu_percent.getD 0)).foldl max 0
           max_ollama_cpu :=
            ((modelSnapshots runs).map (fun s => s.ollama_process_cpu_percent.getD 0)).foldl max 0
           max_ollama_ram_gb :=
            ((modelSnapshots runs).map (fun s => s.ollama_process_ram_rss_gb.getD 0)).foldl max 0 } :
      MaxResources)) ∈ analyze_resource_usage raw := by
  have key : ∀ (snaps : List Snapshot) (a b c : ℚ),
      snaps.foldl updateMax ⟨a, b, c⟩ =
        ⟨(snaps.map (fun s => s.system_cpu_percent.getD 0)).foldl max a,
         (snaps.map (fun s => s.ollama_process_cpu_percent.getD 0)).foldl max b,
         (snaps.map (fun s => s.ollama_process_ram_rss_gb.getD 0)).foldl max c⟩ := by
    intro snaps
    induction snaps with
    | nil => intro a b c; rfl
    | cons hd tl ih =>
      intro a b c
      rw [List.foldl_cons, List.map_cons, List.map_cons, List.map_cons,
        List.foldl_cons, List.foldl_cons, List.foldl_cons]
      exact ih _ _ _
  refine List.mem_filterMap.mpr ⟨(m, runs), hmem, ?_⟩
  dsimp only
  rw [if_neg hne, key]

lemma pyRound_third : pyRound 2 (1 / 3 : ℚ) = 33 / 100 := by
  have hfl : ⌊(1 / 3 : ℚ) * 10 ^ 2⌋ = 33 := by
    rw [Int.floor_eq_iff]
    constructor <;> norm_num
  unfold pyRound
  rw [roundHalfEven_eq_of_floor 33 hfl (by norm_num)]
  norm_num

/-- C5 counterexample: one token over a raw latency of 3 seconds returns
tokens_per_second 0.33, which is not equal to tokens divided by latency
(1/3): the returned value is rounded to 2 decimal places. -/
theorem c5_counterexample :
    generate_response "m" "p" 1 [(oneTokenChunk, 2)] 4 =
      Except.ok ⟨"p", "x", 1, 3, 1, 33 / 100, some oneTokenChunk⟩ ∧
    (33 / 100 : ℚ) ≠ (1 : ℚ) / 3 := by
  constructor
  · have hsl : streamLoop [(oneTokenChunk, 2)] none "" none =
        (some 2, "x", some oneTokenChunk) := rfl
    unfold generate_response
    rw [hsl]
    simp only [mkResult]
    rw [if_neg (show (2 : ℚ) ≠ 0 by norm_num)]
    simp only [Except.ok.injEq, GenResult.mk.injEq]
    have hcond : finalEvalCount (some oneTokenChunk) ≠ 0 ∧ (0 : ℚ) < 4 - 1 :=
      ⟨by decide, by norm_num⟩
    refine ⟨trivial, trivial, ?_, ?_, by decide, ?_, trivial⟩
    · rw [show ((2 : ℚ) - 1) = ((1 : ℤ) : ℚ) by norm_num, pyRound_intCast]
      norm_num
    · rw [show ((4 : ℚ) - 1) = ((3 : ℤ) : ℚ) by norm_num, pyRound_intCast]
      norm_num
    · rw [if_pos hcond]
      rw [show ((finalEvalCount (some oneTokenChunk) : ℚ) / (4 - 1)) = 1 / 3 by
        norm_num [finalEvalCount, oneTokenChunk]]
      exact pyRound_third
  · norm_num

lemma generate_twoToken_eval :
    generate_response "m" "p" 1 [(twoTokenChunk, 2)] 3 = Except.ok twoTokenRes := by
  have hsl : streamLoop [(twoTokenChunk, 2)] none "" none =
      (some 2, "x", some twoTokenChunk) := rfl
  unfold generate_response
  rw [hsl]
  simp only [mkResult]
  rw [if_neg (show (2 : ℚ) ≠ 0 by norm_num)]
  simp only [twoTokenRes, Except.ok.injEq, GenResult.mk.injEq]
  have hcond : finalEvalCount (some twoTokenChunk) ≠ 0 ∧ (0 : ℚ) < 3 - 1 :=
    ⟨by decide, by norm_num⟩
  refine ⟨trivial, trivial, ?_, ?_, by decide, ?_, trivial⟩
  · rw [show ((2 : ℚ) - 1) = ((1 : ℤ) : ℚ) by norm_num, pyRound_intCast]
    norm_num
  · rw [show ((3 : ℚ) - 1) = ((2 : ℤ) : ℚ) by norm_num, pyRound_intCast]
    norm_num
  · rw [if_pos hcond]
    rw [show ((finalEvalCount (some twoTokenChunk) : ℚ) / (3 - 1)) = ((1 : ℤ) : ℚ) by
      norm_num [finalEvalCount, twoTokenChunk], pyRound_intCast]
    norm_num

/-- C5 witness: the amended statement evaluated on the two-token stream,
where the returned tokens_per_second is exactly 1. -/
theorem c5_witness :
    generate_response "m" "p" 1 [(twoTokenChunk, 2)] 3 = Except.ok twoTokenRes ∧
    (twoTokenRes.tokens_per_second =
      if twoTokenRes.tokens_generated ≠ 0 ∧ (0 : ℚ) < 3 - 1
      then pyRound 2 ((twoTokenRes.tokens_generated : ℚ) / (3 - 1))
      else 0) ∧
    (0 : ℚ) ≤ twoTokenRes.tokens_per_second := by
  have h := c5_tokens_per_second "m" "p" 1 3 [(twoTokenChunk, 2)] twoTokenRes
    generate_twoToken_eval
  exact ⟨generate_twoToken_eval, h.1, h.2⟩

/-- C6 witness: on the two-token stream the returned TTFT (1.0) is at
most the returned total latency (2.0). -/
theorem c6_witness :
    twoTokenRes.time_to_first_token_s ≤ twoTokenRes.total_latency_s :=
  c6_ttft_le_latency "m" "p" 1 3 [(twoTokenChunk, 2)] (by decide) twoTokenRes
    generate_twoToken_eval

lemma generate_noDone_eval :
    generate_response "m" "p" 1 noDoneStream 4 = Except.ok noDoneRes := by
  have hsl : streamLoop noDoneStream none "" none = (some 2, "ab", some chunkB) := rfl
  unfold generate_response
  rw [hsl]
  simp only [mkResult]
  rw [if_neg (show (2 : ℚ) ≠ 0 by norm_num)]
  simp only [noDoneRes, Except.ok.injEq, GenResult.mk.injEq]
  have hcond : finalEvalCount (some chunkB) ≠ 0 ∧ (0 : ℚ) < 4 - 1 :=
    ⟨by decide, by norm_num⟩
  refine ⟨trivial, trivial, ?_, ?_, by decide, ?_, trivial⟩
  · rw [show ((2 : ℚ) - 1) = ((1 : ℤ) : ℚ) by norm_num, pyRound_intCast]
    norm_num
  · rw [show ((4 : ℚ) - 1) = ((3 : ℤ) : ℚ) by norm_num, pyRound_intCast]
    norm_num
  · rw [if_pos hcond]
    rw [show ((finalEvalCount (some chunkB) : ℚ) / (4 - 1)) = 7 / 3 by
      norm_num [finalEvalCount, chunkB]]
    have hfl : ⌊(7 / 3 : ℚ) * 10 ^ 2⌋ = 233 := by
      rw [Int.floor_eq_iff]
      constructor <;> norm_num
    unfold pyRound
    rw [roundHalfEven_eq_of_floor 233 hfl (by norm_num)]
    norm_num

/-- C10 witness: the two-chunk stream with no done flag returns normally
with the concatenated text "ab" and metadata and token count from the
last chunk. -/
theorem c10_witness :
    generate_response "m" "p" 1 noDoneStream 4 = Except.ok noDoneRes ∧
    noDoneRes.response_text = noDoneStream.foldl (fun a p => a ++ p.1.response.getD "") "" ∧
    noDoneRes.ollama_metadata = (noDoneStream.getLast?).map Prod.fst ∧
    noDoneRes.tokens_generated =
      ((noDoneStream.getLast?).map (fun p => p.1.eval_count.getD 0)).getD 0 := by
  obtain ⟨r, h1, h2, h3, h4⟩ := c10_no_done_returns "m" "p" 1 4 noDoneStream
    (by decide) (by norm_num) (by decide) (by decide)
  have hr : r = noDoneRes := Except.ok.inj (h1.symm.trans generate_noDone_eval)
  subst hr
  exact ⟨generate_noDone_eval, h2, h3, h4⟩

/-- C8 witness: the host-only model reports max_system_cpu 85 with both
process maxima 0 rather than absent, and the process model reports its
actual maxima. -/
theorem c8_witness :
    ("modelA", (⟨85, 0, 0⟩ : MaxResources)) ∈ analyze_resource_usage rawAB ∧
    ("modelB", (⟨20, 50, 2⟩ : MaxResources)) ∈ analyze_resource_usage rawAB := by
  constructor
  · have h := c8_running_maxima rawAB "modelA" hostRunsA
      (by exact List.mem_cons_self _ _) (by decide)
    have e : (⟨((modelSnapshots hostRunsA).map (fun s => s.system_cpu_percent.getD 0)).foldl max 0,
        ((modelSnapshots hostRunsA).map (fun s => s.ollama_process_cpu_percent.getD 0)).foldl max 0,
        ((modelSnapshots hostRunsA).map (fun s => s.ollama_process_ram_rss_gb.getD 0)).foldl max 0⟩ :
        MaxResources) = ⟨85, 0, 0⟩ := by
      have hsnaps : modelSnapshots hostRunsA =
          [⟨some 10, none, none⟩, ⟨some 85, none, none⟩] := rfl
      rw [hsnaps]
      simp only [List.map_cons, List.map_nil, List.foldl_cons, List.foldl_nil,
        Option.getD_some, Option.getD_none]
      norm_num [MaxResources.mk.injEq, max_def]
    rw [← e]
    exact h
  · have h := c8_running_maxima rawAB "modelB" procRunsB
      (by simp [rawAB]) (by decide)
    have e : (⟨((modelSnapshots procRunsB).map (fun s => s.system_cpu_percent.getD 0)).foldl max 0,
        ((modelSnapshots procRunsB).map (fun s => s.ollama_process_cpu_percent.getD 0)).foldl max 0,
        ((modelSnapshots procRunsB).map (fun s => s.ollama_process_ram_rss_gb.getD 0)).foldl max 0⟩ :
        MaxResources) = ⟨20, 50, 2⟩ := by
      have hsnaps : modelSnapshots procRunsB = [⟨some 20, some 50, some 2⟩] := rfl
      rw [hsnaps]
      simp only [List.map_cons, List.map_nil, List.foldl_cons, List.foldl_nil,
        Option.getD_some, Option.getD_none]
      norm_num [MaxResources.mk.injEq, max_def]
    rw [← e]
    exact h

/-- C9 witness: the general characterization applied to the concrete
sample sensors text. -/
theorem c9_witness :
    parseSensorsOutput sampleSensors =
      match (splitOnNl sampleSensors.data).findSome?
          (fun line => if lineHasKeyword line then searchTemp line else none) with
      | some v => some v
      | none => ((splitOnNl sampleSensors.data).filterMap searchTemp).max? :=
  c9_priority_then_highest.1 sampleSensors
